import Mathlib

/-!
Shallow embedding of the tool-call translation and dispatch layer of the
repository (src/tools.py and src/tool_handler.py), with theorems settling
the frozen claims about its specification.

Conventions of the embedding:
* Python dict-based request objects become Lean structures whose fields
  model the recognized keys; a missing key and a falsy value coincide
  exactly when the Python code only tests truthiness.
* Python `json.dumps` is modelled by `pyJsonDumps` over `PyValue`, a type
  of Python values: JSON-representable constructors plus `pyObject`, a
  stand-in for any value `json.dumps` rejects with TypeError (e.g. a set).
* Fallible Python code (code that can raise) returns `Except String`.
-/

/-- A Python runtime value as far as `json.dumps` is concerned: strings,
ints, bools, None, lists, dicts with string keys, and `pyObject`, an
arbitrary object that is not JSON-serializable. -/
inductive PyValue where
  | str (s : String)
  | int (n : Int)
  | bool (b : Bool)
  | null
  | list (xs : List PyValue)
  | dict (kvs : List (String × PyValue))
  | pyObject

/-- Hexadecimal digit character (0-15, lowercase letters), as used by
Python's \uXXXX escapes. -/
def hexDigit (n : Nat) : Char := Nat.digitChar n

/-- Four-digit lowercase hexadecimal rendering of `n % 65536`. -/
def hex4 (n : Nat) : String :=
  String.mk [hexDigit (n / 4096 % 16), hexDigit (n / 256 % 16),
             hexDigit (n / 16 % 16), hexDigit (n % 16)]

/-- Escape one character the way `json.dumps` (default `ensure_ascii=True`)
escapes characters inside a JSON string literal. -/
def jsonEscapeChar (c : Char) : String :=
  if c = '"' then "\\\""
  else if c = '\\' then "\\\\"
  else if c = '\n' then "\\n"
  else if c = '\t' then "\\t"
  else if c = '\r' then "\\r"
  else if c = '\x08' then "\\b"
  else if c = '\x0c' then "\\f"
  else if c.toNat < 0x20 then "\\u" ++ hex4 c.toNat
  else if c.toNat < 0x7f then String.singleton c
  else if c.toNat ≤ 0xffff then "\\u" ++ hex4 c.toNat
  else
    let v := c.toNat - 0x10000
    "\\u" ++ hex4 (0xd800 + v / 0x400) ++ "\\u" ++ hex4 (0xdc00 + v % 0x400)

/-- JSON string literal for `s`, Python `json.dumps` style. -/
def jsonQuote (s : String) : String :=
  "\"" ++ String.join (s.data.map jsonEscapeChar) ++ "\""

mutual

/-- Python `json.dumps` with its default separators; raises (returns
`Except.error`) on a value that is not JSON-serializable. -/
def pyJsonDumps : PyValue → Except String String
  | .str s => .ok (jsonQuote s)
  | .int n => .ok (toString n)
  | .bool b => .ok (if b then "true" else "false")
  | .null => .ok "null"
  | .list xs => (dumpsElems xs).map fun parts =>
      "[" ++ String.intercalate ", " parts ++ "]"
  | .dict kvs => (dumpsPairs kvs).map fun parts =>
      "\x7b" ++ String.intercalate ", " parts ++ "\x7d"
  | .pyObject => .error "Object is not JSON serializable"

/-- Serialize the elements of a JSON array. -/
def dumpsElems : List PyValue → Except String (List String)
  | [] => .ok []
  | v :: vs => do pure ((← pyJsonDumps v) :: (← dumpsElems vs))

/-- Serialize the `"key": value` entries of a JSON object. -/
def dumpsPairs : List (String × PyValue) → Except String (List String)
  | [] => .ok []
  | (k, v) :: rest => do
      pure ((jsonQuote k ++ ": " ++ (← pyJsonDumps v)) :: (← dumpsPairs rest))

end

/-- `json.dumps` of a one-entry dict with a string value, as built by the
intent extractor (`json.dumps({key: val})`). -/
def dumpsStrField (key val : String) : String :=
  "\x7b" ++ jsonQuote key ++ ": " ++ jsonQuote val ++ "\x7d"

theorem dumpsStrField_eq_pyJsonDumps (key val : String) :
    pyJsonDumps (.dict [(key, .str val)]) = .ok (dumpsStrField key val) := rfl

/-- The `ToolType` enum of src/tools.py: the closed set of internal tool
identifiers. The string value of each member is given by
`ToolType.value`. -/
inductive ToolType where
  | read | write | edit | bash | search | grep | ls | cd
  | web_search | web_fetch | todo_read | todo_write
  | git | docker | k8s
deriving DecidableEq, Fintype

/-- The enum member's string value (e.g. `ToolType.READ = "read"`). -/
def ToolType.value : ToolType → String
  | .read => "read"
  | .write => "write"
  | .edit => "edit"
  | .bash => "bash"
  | .search => "search"
  | .grep => "grep"
  | .ls => "ls"
  | .cd => "cd"
  | .web_search => "web_search"
  | .web_fetch => "web_fetch"
  | .todo_read => "todo_read"
  | .todo_write => "todo_write"
  | .git => "git"
  | .docker => "docker"
  | .k8s => "kubectl"

/-- Python `ToolType(tool_name)`: the enum constructor by value, `none`
standing for the ValueError path. -/
def ToolType.ofString? : String → Option ToolType
  | "read" => some .read
  | "write" => some .write
  | "edit" => some .edit
  | "bash" => some .bash
  | "search" => some .search
  | "grep" => some .grep
  | "ls" => some .ls
  | "cd" => some .cd
  | "web_search" => some .web_search
  | "web_fetch" => some .web_fetch
  | "todo_read" => some .todo_read
  | "todo_write" => some .todo_write
  | "git" => some .git
  | "docker" => some .docker
  | "kubectl" => some .k8s
  | _ => Option.none

/-- `ToolFunction` of src/tools.py: OpenAI-compatible function definition
(name, description, JSON-Schema parameters). -/
structure ToolFunction where
  name : String
  description : String
  parameters : PyValue

/-- `Tool` of src/tools.py: OpenAI-compatible tool definition. -/
structure Tool where
  type : String
  function : ToolFunction

/-- The `CLAUDE_TOOLS[ToolType.READ]` entry of src/tools.py. -/
def readTool : Tool :=
  { type := "function"
    function :=
      { name := "read_file"
        description := "Read the contents of a file"
        parameters := .dict
          [("type", .str "object"),
           ("properties", .dict
             [("path", .dict
                [("type", .str "string"),
                 ("description", .str "Path to the file to read")]),
              ("encoding", .dict
                [("type", .str "string"),
                 ("description", .str "File encoding"),
                 ("default", .str "utf-8")])]),
           ("required", .list [.str "path"])] } }

/-- The `CLAUDE_TOOLS[ToolType.WRITE]` entry of src/tools.py. -/
def writeTool : Tool :=
  { type := "function"
    function :=
      { name := "write_file"
        description := "Write content to a file"
        parameters := .dict
          [("type", .str "object"),
           ("properties", .dict
             [("path", .dict
                [("type", .str "string"),
                 ("description", .str "Path to the file to write")]),
              ("content", .dict
                [("type", .str "string"),
                 ("description", .str "Content to write to the file")]),
              ("encoding", .dict
                [("type", .str "string"),
                 ("description", .str "File encoding"),
                 ("default", .str "utf-8")])]),
           ("required", .list [.str "path", .str "content"])] } }

/-- The `CLAUDE_TOOLS[ToolType.EDIT]` entry of src/tools.py. -/
def editTool : Tool :=
  { type := "function"
    function :=
      { name := "edit_file"
        description := "Edit a file by replacing text"
        parameters := .dict
          [("type", .str "object"),
           ("properties", .dict
             [("path", .dict
                [("type", .str "string"),
                 ("description", .str "Path to the file to edit")]),
              ("old_text", .dict
                [("type", .str "string"),
                 ("description", .str "Text to replace")]),
              ("new_text", .dict
                [("type", .str "string"),
                 ("description", .str "New text to insert")])]),
           ("required", .list [.str "path", .str "old_text", .str "new_text"])] } }

/-- The `CLAUDE_TOOLS[ToolType.BASH]` entry of src/tools.py. -/
def bashTool : Tool :=
  { type := "function"
    function :=
      { name := "run_command"
        description := "Execute a bash command"
        parameters := .dict
          [("type", .str "object"),
           ("properties", .dict
             [("command", .dict
                [("type", .str "string"),
                 ("description", .str "Bash command to execute")]),
              ("cwd", .dict
                [("type", .str "string"),
                 ("description", .str "Working directory for the command"),
                 ("default", .str ".")]),
              ("timeout", .dict
                [("type", .str "integer"),
                 ("description", .str "Command timeout in seconds"),
                 ("default", .int 30)])]),
           ("required", .list [.str "command"])] } }

/-- The `CLAUDE_TOOLS[ToolType.SEARCH]` entry of src/tools.py. -/
def searchTool : Tool :=
  { type := "function"
    function :=
      { name := "search_files"
        description := "Search for files by name pattern"
        parameters := .dict
          [("type", .str "object"),
           ("properties", .dict
             [("pattern", .dict
                [("type", .str "string"),
                 ("description", .str "Search pattern (glob format)")]),
              ("path", .dict
                [("type", .str "string"),
                 ("description", .str "Directory to search in"),
                 ("default", .str ".")])]),
           ("required", .list [.str "pattern"])] } }

/-- The `CLAUDE_TOOLS[ToolType.GREP]` entry of src/tools.py. -/
def grepTool : Tool :=
  { type := "function"
    function :=
      { name := "search_in_files"
        description := "Search for text within files"
        parameters := .dict
          [("type", .str "object"),
           ("properties", .dict
             [("pattern", .dict
                [("type", .str "string"),
                 ("description", .str "Regular expression pattern to search for")]),
              ("path", .dict
                [("type", .str "string"),
                 ("description", .str "Path to search in"),
                 ("default", .str ".")]),
              ("file_pattern", .dict
                [("type", .str "string"),
                 ("description", .str "File pattern to search within"),
                 ("default", .str "*")])]),
           ("required", .list [.str "pattern"])] } }

/-- The `CLAUDE_TOOLS[ToolType.LS]` entry of src/tools.py. -/
def lsTool : Tool :=
  { type := "function"
    function :=
      { name := "list_directory"
        description := "List contents of a directory"
        parameters := .dict
          [("type", .str "object"),
           ("properties", .dict
             [("path", .dict
                [("type", .str "string"),
                 ("description", .str "Directory path to list"),
                 ("default", .str ".")]),
              ("show_hidden", .dict
                [("type", .str "boolean"),
                 ("description", .str "Show hidden files"),
                 ("default", .bool false)])]),
           ("required", .list [])] } }

/-- The `CLAUDE_TOOLS[ToolType.WEB_SEARCH]` entry of src/tools.py. -/
def webSearchTool : Tool :=
  { type := "function"
    function :=
      { name := "web_search"
        description := "Search the web for information"
        parameters := .dict
          [("type", .str "object"),
           ("properties", .dict
             [("query", .dict
                [("type", .str "string"),
                 ("description", .str "Search query")]),
              ("num_results", .dict
                [("type", .str "integer"),
                 ("description", .str "Number of results to return"),
                 ("default", .int 5)])]),
           ("required", .list [.str "query"])] } }

/-- The `CLAUDE_TOOLS[ToolType.WEB_FETCH]` entry of src/tools.py. -/
def webFetchTool : Tool :=
  { type := "function"
    function :=
      { name := "fetch_url"
        description := "Fetch content from a URL"
        parameters := .dict
          [("type", .str "object"),
           ("properties", .dict
             [("url", .dict
                [("type", .str "string"),
                 ("description", .str "URL to fetch")]),
              ("extract_text", .dict
                [("type", .str "boolean"),
                 ("description", .str "Extract text content only"),
                 ("default", .bool true)])]),
           ("required", .list [.str "url"])] } }

/-- The `CLAUDE_TOOLS` dict of src/tools.py, in insertion (iteration)
order: an association list from internal identifier to tool definition. -/
def CLAUDE_TOOLS : List (ToolType × Tool) :=
  [(ToolType.read, readTool),
   (ToolType.write, writeTool),
   (ToolType.edit, editTool),
   (ToolType.bash, bashTool),
   (ToolType.search, searchTool),
   (ToolType.grep, grepTool),
   (ToolType.ls, lsTool),
   (ToolType.web_search, webSearchTool),
   (ToolType.web_fetch, webFetchTool)]

/-- `ToolRegistry.get_tool`: first catalogue entry whose external function
name equals `name`, or `none`. -/
def get_tool (name : String) : Option Tool :=
  (CLAUDE_TOOLS.find? fun p => p.2.function.name == name).map (·.2)

/-- The identifier component of the `get_tool` scan: the internal
identifier whose catalogue entry carries external name `name`
(the spec's `identifierOf`). -/
def identifier_of (name : String) : Option ToolType :=
  (CLAUDE_TOOLS.find? fun p => p.2.function.name == name).map (·.1)

/-- `ToolRegistry.enable_tools`: for each name, `ToolType(tool_name)` is
attempted; on success the tool type is added to the enabled set, on
ValueError the name is logged and skipped. -/
def enable_tools (names : List String) (enabled : Finset ToolType) :
    Finset ToolType :=
  names.foldl (fun acc n =>
    match ToolType.ofString? n with
    | some t => insert t acc
    | Option.none => acc) enabled

/-- `ToolRegistry.disable_tools`: for each name, `ToolType(tool_name)` is
attempted; on success the tool type is discarded from the enabled set, on
ValueError the name is logged and skipped. -/
def disable_tools (names : List String) (enabled : Finset ToolType) :
    Finset ToolType :=
  names.foldl (fun acc n =>
    match ToolType.ofString? n with
    | some t => acc.erase t
    | Option.none => acc) enabled

/-- `ToolRegistry.set_allowed_tools`: `None` resets the enabled set to the
whole `ToolType` enum (`set(ToolType)`); a concrete list resets it to the
empty set and then enables exactly that list. The previous enabled set is
discarded either way. -/
def set_allowed_tools (tools : Option (List String))
    (_enabled : Finset ToolType) : Finset ToolType :=
  match tools with
  | Option.none => Finset.univ
  | some ts => enable_tools ts ∅

/-- `ToolRegistry.get_enabled_tools`: filter the catalogue (in catalogue
order) by membership in the enabled set. -/
def get_enabled_tools (enabled : Finset ToolType) : List Tool :=
  (CLAUDE_TOOLS.filter fun p => decide (p.1 ∈ enabled)).map (·.2)

/-- The `function` sub-dict of an OpenAI-format tool or legacy function
entry, as far as the handler reads it: `name` and `description` keys may
be present or absent (`None` models a missing key). -/
structure FunctionSpec where
  name : Option String
  description : Option String
deriving DecidableEq

/-- One entry of a request's `tools` array, as far as the handler reads
it: the `type` key and the `function` sub-dict, either possibly absent. -/
structure ToolSpec where
  type : Option String
  function : Option FunctionSpec
deriving DecidableEq

/-- An inbound chat-completion request, restricted to the keys
`ToolHandler` reads: `enable_tools` (truthiness of the value),
`tools` and `functions` (absent key and empty array coincide, since the
code only tests truthiness and iterates). -/
structure Request where
  enable_tools : Bool
  tools : List ToolSpec
  functions : List FunctionSpec
deriving DecidableEq

/-- `ToolHandler._map_function_to_tool`: the fixed OpenAI-name to
Claude-tool-name dict, `dict.get` returning `none` off the table. -/
def map_function_to_tool (function_name : String) : Option String :=
  if function_name = "read_file" then some "Read"
  else if function_name = "write_file" then some "Write"
  else if function_name = "edit_file" then some "Edit"
  else if function_name = "run_command" then some "Bash"
  else if function_name = "search_files" then some "Glob"
  else if function_name = "search_in_files" then some "Grep"
  else if function_name = "list_directory" then some "LS"
  else if function_name = "web_search" then some "WebSearch"
  else if function_name = "fetch_url" then some "WebFetch"
  else if function_name = "read_todo" then some "TodoRead"
  else if function_name = "write_todo" then some "TodoWrite"
  else Option.none

/-- `ToolHandler.should_enable_tools`: true if `enable_tools` is truthy,
or the `tools` array is truthy (non-empty), or the legacy `functions`
array is truthy (non-empty). -/
def should_enable_tools (r : Request) : Bool :=
  if r.enable_tools then true
  else if !r.tools.isEmpty then true
  else if !r.functions.isEmpty then true
  else false

/-- The Claude tool name extracted from one `tools` entry in
`ToolHandler.get_tool_config`: entries whose `type` is not `"function"`,
whose function name is missing, or whose name has no mapping contribute
nothing. -/
def toolSpecClaudeName (t : ToolSpec) : Option String :=
  if t.type = some "function" then
    match (t.function.getD ⟨Option.none, Option.none⟩).name with
    | some n => map_function_to_tool n
    | Option.none => Option.none
  else Option.none

/-- `ToolHandler.get_tool_config`: returns the pair
`(allowed_tools, disallowed_tools)`; `none` in the first component means
"all tools enabled", `some []` means "no tools". -/
def get_tool_config (r : Request) :
    Option (List String) × Option (List String) :=
  if !r.tools.isEmpty then
    (some (r.tools.filterMap toolSpecClaudeName), Option.none)
  else if r.enable_tools then
    (Option.none, Option.none)
  else
    (some [], Option.none)

/-- The `Message` model as used by `ToolHandler` (models.py is not under
src/). Modelled from the spec: §3 ConversationMessage — role (string),
content (text, nullable), optional tool-call reference. -/
structure Message where
  role : String
  content : Option String
  tool_call_id : Option String
deriving DecidableEq

/-- The `FunctionCall` model as used by `ToolHandler` (models.py is not
under src/). Modelled from the spec: §6 outbound tool-call shape
`function:{name, arguments: <JSON string>}`. -/
structure FunctionCall where
  name : String
  arguments : String
deriving DecidableEq

/-- The `ToolCall` model as used by `ToolHandler` (models.py is not under
src/). Modelled from the spec: §6 outbound tool-call shape
`{id, type:"function", function}`. -/
structure ToolCall where
  id : String
  type : String
  function : FunctionCall
deriving DecidableEq

/-- Python truthiness of an `Optional[str]`: `None` and `""` are falsy. -/
def strOptTruthy : Option String → Bool
  | some e => !(e == "")
  | Option.none => false

/-- `ToolHandler.format_tool_response`: error branch by truthiness of
`error`; otherwise the result verbatim when it is a `str`, else its
`json.dumps` — whose TypeError, if any, propagates (`Except.error`). -/
def format_tool_response (tool_call_id : String) (result : PyValue)
    (error : Option String) : Except String Message :=
  if strOptTruthy error then
    .ok { role := "tool", tool_call_id := some tool_call_id,
          content := some ("Error executing tool: " ++ error.getD "") }
  else
    match result with
    | .str s =>
        .ok { role := "tool", tool_call_id := some tool_call_id,
              content := some s }
    | r =>
        (pyJsonDumps r).map fun c =>
          { role := "tool", tool_call_id := some tool_call_id,
            content := some c }

/-- Python f-string rendering of an `Optional[str]` field: a missing value
prints as `None`. -/
def pyStrOpt : Option String → String
  | some s => s
  | Option.none => "None"

/-- The `"- {name}: {desc}"` lines built by
`ToolHandler.inject_tool_context`, one per entry of `tools` whose `type`
is `"function"`. -/
def injectDescLines (tools : List ToolSpec) : List String :=
  tools.filterMap fun t =>
    if t.type = some "function" then
      let f := t.function.getD ⟨Option.none, Option.none⟩
      some ("- " ++ pyStrOpt f.name ++ ": " ++ pyStrOpt f.description)
    else Option.none

/-- The `tool_context` block of `ToolHandler.inject_tool_context`. -/
def injectContext (tools : List ToolSpec) : String :=
  "\n\nAvailable tools:\n" ++ String.intercalate "\n" (injectDescLines tools)

/-- The fresh system message `ToolHandler.inject_tool_context` prepends
when no system message exists. -/
def injectSystemMessage (tools : List ToolSpec) : Message :=
  { role := "system"
    content := some ("You have access to the following tools:"
      ++ injectContext tools
      ++ "\n\nWhen you need to use a tool, clearly indicate which tool and with what parameters.")
    tool_call_id := Option.none }

/-- The in-place update loop of `ToolHandler.inject_tool_context`: append
`ctx` to the content of the first message whose role is `"system"` (a
`None` content counts as `""`), leaving every other message untouched. -/
def appendToFirstSystem (ctx : String) : List Message → List Message
  | [] => []
  | m :: ms =>
      if m.role == "system" then
        { m with content := some ((m.content.getD "") ++ ctx) } :: ms
      else m :: appendToFirstSystem ctx ms

/-- `ToolHandler.inject_tool_context`: unchanged when `tools` is falsy or
no entry is function-typed; else append the rendered block to the first
system message, or prepend a fresh system message when none exists. -/
def inject_tool_context (messages : List Message) (tools : List ToolSpec) :
    List Message :=
  if tools.isEmpty then messages
  else if (injectDescLines tools).isEmpty then messages
  else if messages.any (fun m => m.role == "system") then
    appendToFirstSystem (injectContext tools) messages
  else
    injectSystemMessage tools :: messages

/-- `re` whitespace class `\s`, on its ASCII subset (the only characters
the concrete inputs of this development use). -/
def isSpc (c : Char) : Bool :=
  c == ' ' || c == '\t' || c == '\n' || c == '\r' || c == '\x0b' || c == '\x0c'

/-- Match a literal character sequence at the head, returning the
remainder on success. -/
def stripLit : List Char → List Char → Option (List Char)
  | [], s => some s
  | _ :: _, [] => Option.none
  | l :: ls, c :: cs => if c == l then stripLit ls cs else Option.none

/-- Match a lowercase literal at the head under `re.IGNORECASE`, returning
the remainder on success. -/
def stripCI : List Char → List Char → Option (List Char)
  | [], s => some s
  | _ :: _, [] => Option.none
  | l :: ls, c :: cs => if c.toLower == l then stripCI ls cs else Option.none

/-- The lazy `(.*?)\n&#96;&#96;&#96;` tail of the fenced-block pattern: split at
the earliest occurrence of the closing fence, returning the captured text
and the remainder after the fence. -/
def splitAtStop : List Char → Option (List Char × List Char)
  | [] => Option.none
  | c :: cs =>
      match stripLit "\n```".data (c :: cs) with
      | some rest => some ([], rest)
      | Option.none =>
          match splitAtStop cs with
          | some (pre, rest) => some (c :: pre, rest)
          | Option.none => Option.none

/-- One attempt of the fenced-block pattern
`(?:bash|sh|shell)` fence at the current position (the three openers are
mutually exclusive, so committing to the first that matches is faithful
to the regex backtracking order). -/
def matchBashAt (s : List Char) : Option (List Char × List Char) :=
  match stripLit "```bash\n".data s with
  | some rest => splitAtStop rest
  | Option.none =>
      match stripLit "```sh\n".data s with
      | some rest => splitAtStop rest
      | Option.none =>
          match stripLit "```shell\n".data s with
          | some rest => splitAtStop rest
          | Option.none => Option.none

/-- `re.findall` for the fenced-command pattern: scan left to right,
non-overlapping, resuming after each match; fuel bounds the scan by the
input length. -/
def bashFindallAux : Nat → List Char → List (List Char)
  | 0, _ => []
  | _ + 1, [] => []
  | fuel + 1, c :: cs =>
      match matchBashAt (c :: cs) with
      | some (cap, rest) => cap :: bashFindallAux fuel rest
      | Option.none => bashFindallAux fuel cs

/-- The verb alternation `(?:read|check|look at|examine|view)` of the
file-read pattern (first letters are pairwise distinct, so committing to
the matching alternative is faithful). -/
def matchVerb (s : List Char) : Option (List Char) :=
  match stripCI "read".data s with
  | some r => some r
  | Option.none =>
      match stripCI "check".data s with
      | some r => some r
      | Option.none =>
          match stripCI "look at".data s with
          | some r => some r
          | Option.none =>
              match stripCI "examine".data s with
              | some r => some r
              | Option.none => stripCI "view".data s

/-- Split a maximal run of `\s` characters off the head. -/
def spanSpc (s : List Char) : List Char × List Char :=
  (s.takeWhile isSpc, s.dropWhile isSpc)

/-- The greedy optional filler `(?:the\s+)?`: consumed when `the`
followed by at least one whitespace character is present (falling back to
consuming nothing cannot change the outcome, since `file` does not start
with `t`). -/
def skipTheFiller (s : List Char) : List Char :=
  match stripCI "the".data s with
  | some r =>
      let (sp, r') := spanSpc r
      if sp.isEmpty then s else r'
  | Option.none => s

/-- A quote character of the file-read pattern. -/
def isQuote (c : Char) : Bool := c == '"' || c == '\''

/-- The character class `[^"\'\s]` capturing the path token. -/
def pathChar (c : Char) : Bool := !(isQuote c || isSpc c)

/-- One attempt of the file-read pattern at the current position,
returning the captured path token and the remainder after the match. -/
def matchReadAt (s : List Char) : Option (List Char × List Char) :=
  match matchVerb s with
  | Option.none => Option.none
  | some s1 =>
      let (sp, s2) := spanSpc s1
      if sp.isEmpty then Option.none
      else
        let s3 := skipTheFiller s2
        match stripCI "file".data s3 with
        | Option.none => Option.none
        | some s4 =>
            let (sp2, s5) := spanSpc s4
            if sp2.isEmpty then Option.none
            else
              let s6 := match s5 with
                | c :: rest => if isQuote c then rest else s5
                | [] => s5
              let tok := s6.takeWhile pathChar
              if tok.isEmpty then Option.none
              else
                let s7 := s6.dropWhile pathChar
                let s8 := match s7 with
                  | c :: rest => if isQuote c then rest else s7
                  | [] => s7
                some (tok, s8)

/-- `re.findall` for the file-read pattern: scan left to right,
non-overlapping, resuming after each match. -/
def readFindallAux : Nat → List Char → List (List Char)
  | 0, _ => []
  | _ + 1, [] => []
  | fuel + 1, c :: cs =>
      match matchReadAt (c :: cs) with
      | some (cap, rest) => cap :: readFindallAux fuel rest
      | Option.none => readFindallAux fuel cs

/-- Python `str.strip()` on its ASCII-whitespace subset. -/
def pyStrip (s : List Char) : List Char :=
  ((s.dropWhile isSpc).reverse.dropWhile isSpc).reverse

/-- Decimal digit characters of `n`, most significant first; fuel-driven
so the definition is structurally recursive (any fuel above the digit
count gives the same value). -/
def toDecChars : Nat → Nat → List Char
  | 0, _ => []
  | fuel + 1, n =>
      if n < 10 then [Nat.digitChar n]
      else toDecChars fuel (n / 10) ++ [Nat.digitChar (n % 10)]

/-- Python `str(n)` for a natural number. -/
def toDecimal (n : Nat) : String := (toDecChars (n + 1) n).asString

/-- The synthetic identifier `f"call_{i}"` of the intent extractor. -/
def callId (i : Nat) : String := "call_" ++ toDecimal i

/-- The candidate-construction loop shared by the extractor's two passes:
one `ToolCall` per matched string, with sequential identifiers starting
at `i` and a one-field JSON argument object. -/
def mkCalls (name key : String) : Nat → List String → List ToolCall
  | _, [] => []
  | i, v :: vs =>
      { id := callId i, type := "function",
        function := { name := name, arguments := dumpsStrField key v } }
        :: mkCalls name key (i + 1) vs

/-- The `.strip()`ed fenced-block commands of `content`, in match
order. -/
def bash_commands (content : String) : List String :=
  (bashFindallAux content.data.length content.data).map
    fun m => (pyStrip m).asString

/-- The captured file paths of `content`, in match order. -/
def read_paths (content : String) : List String :=
  (readFindallAux content.data.length content.data).map List.asString

/-- The full candidate list built by
`ToolHandler.extract_tool_calls_from_message`: the command pass first,
then the file-read pass with identifiers continuing at
`len(tool_calls)`. -/
def extractList (content : String) : List ToolCall :=
  let pass1 := mkCalls "run_command" "command" 0 (bash_commands content)
  pass1 ++ mkCalls "read_file" "path" pass1.length (read_paths content)

/-- `ToolHandler.extract_tool_calls_from_message`, as a function of the
message's content text (`message.get("content", "")`): returns
`tool_calls if tool_calls else None`. -/
def extract_tool_calls_from_message (content : String) :
    Option (List ToolCall) :=
  let tcs := extractList content
  if tcs.isEmpty then Option.none else some tcs

/-- Modelled from the spec: the policy decision claimed by C1 (spec §4.4),
as a pair (tools active, allow-list): (1) a non-empty tools array gives
the mapped internal identifiers, (2) else the enable-all flag gives
allow-list none, (3) else a non-empty legacy functions list is treated
identically to case 1 on the legacy names, (4) else inactive with empty
allow-list. Written from the claim's words, to be compared with the pair
the code computes. -/
def claimPolicyC1 (r : Request) : Bool × Option (List String) :=
  if !r.tools.isEmpty then
    (true, some (r.tools.filterMap toolSpecClaudeName))
  else if r.enable_tools then
    (true, Option.none)
  else if !r.functions.isEmpty then
    (true, some (r.functions.filterMap fun f => f.name.bind map_function_to_tool))
  else
    (false, some [])

/-- The policy decision the code actually implements, stated in the
claim's four-case shape: identical to `claimPolicyC1` except that in the
legacy-functions case the allow-list is empty (`get_tool_config` has no
`functions` branch and falls through to `([], None)`). -/
def amendedPolicyC1 (r : Request) : Bool × Option (List String) :=
  if !r.tools.isEmpty then
    (true, some (r.tools.filterMap toolSpecClaudeName))
  else if r.enable_tools then
    (true, Option.none)
  else if !r.functions.isEmpty then
    (true, some [])
  else
    (false, some [])

/-- A request carrying only a legacy `functions` list naming
`read_file`. -/
def reqFuncOnly : Request :=
  { enable_tools := false, tools := [],
    functions := [⟨some "read_file", Option.none⟩] }

/-- A request whose `tools` array contains exactly one function-typed
definition named `read_file`. -/
def reqReadFile : Request :=
  { enable_tools := false,
    tools := [⟨some "function", some ⟨some "read_file", Option.none⟩⟩],
    functions := [] }

/-- Decimal decoder, a left inverse of `toDecChars` used to prove the
extractor's synthetic identifiers unique. -/
def decodeDec (cs : List Char) : Nat :=
  cs.foldl (fun acc c => acc * 10 + (c.toNat - 48)) 0

theorem digitChar_toNat_sub {d : Nat} (h : d < 10) :
    (Nat.digitChar d).toNat - 48 = d := by
  interval_cases d <;> rfl

theorem decodeDec_append (xs : List Char) (c : Char) :
    decodeDec (xs ++ [c]) = decodeDec xs * 10 + (c.toNat - 48) := by
  simp [decodeDec, List.foldl_append]

theorem decodeDec_toDecChars :
    ∀ fuel n, n < fuel → decodeDec (toDecChars fuel n) = n := by
  intro fuel
  induction fuel with
  | zero => intro n h; omega
  | succ fuel ih =>
      intro n h
      unfold toDecChars
      by_cases h10 : n < 10
      · simp only [h10, if_true]
        simp [decodeDec, digitChar_toNat_sub h10]
      · simp only [h10, if_false]
        rw [decodeDec_append, ih (n / 10) (by
          have hn : 0 < n := by omega
          have := Nat.div_lt_self hn (by omega : 1 < 10)
          omega), digitChar_toNat_sub (Nat.mod_lt n (by omega))]
        have := Nat.div_add_mod n 10
        omega

theorem toDecimal_injective : Function.Injective toDecimal := by
  intro a b h
  have h2 : toDecChars (a + 1) a = toDecChars (b + 1) b :=
    congrArg String.data h
  have h3 := congrArg decodeDec h2
  rwa [decodeDec_toDecChars _ _ (Nat.lt_succ_self a),
       decodeDec_toDecChars _ _ (Nat.lt_succ_self b)] at h3

theorem callId_injective : Function.Injective callId := by
  intro a b h
  have hd : "call_".data ++ (toDecimal a).data
      = "call_".data ++ (toDecimal b).data := congrArg String.data h
  have hdata : (toDecimal a).data = (toDecimal b).data :=
    List.append_cancel_left hd
  exact toDecimal_injective (String.ext hdata)

theorem mkCalls_map_id (name key : String) :
    ∀ (vs : List String) (i : Nat),
      (mkCalls name key i vs).map (·.id) = (List.range' i vs.length).map callId := by
  intro vs
  induction vs with
  | nil => intro i; rfl
  | cons v vs ih =>
      intro i
      simp only [mkCalls, List.map_cons, List.length_cons, List.range'_succ]
      rw [ih (i + 1)]

theorem mkCalls_length (name key : String) :
    ∀ (vs : List String) (i : Nat), (mkCalls name key i vs).length = vs.length := by
  intro vs
  induction vs with
  | nil => intro i; rfl
  | cons v vs ih => intro i; simp [mkCalls, ih]

theorem mkCalls_getElem? (name key : String) :
    ∀ (vs : List String) (i j : Nat),
      (mkCalls name key i vs)[j]? = (vs[j]?).map fun v =>
        ⟨callId (i + j), "function", ⟨name, dumpsStrField key v⟩⟩ := by
  intro vs
  induction vs with
  | nil => intro i j; simp [mkCalls]
  | cons v vs ih =>
      intro i j
      cases j with
      | zero => simp [mkCalls]
      | succ j =>
          simp only [mkCalls, List.getElem?_cons_succ]
          rw [ih (i + 1) j]
          have : i + 1 + j = i + (j + 1) := by omega
          rw [this]

theorem mem_enable_tools :
    ∀ (names : List String) (s : Finset ToolType) (t : ToolType),
      t ∈ enable_tools names s ↔
        t ∈ s ∨ ∃ n ∈ names, ToolType.ofString? n = some t := by
  intro names
  induction names with
  | nil => intro s t; simp [enable_tools]
  | cons n ns ih =>
      intro s t
      show t ∈ enable_tools ns (match ToolType.ofString? n with
        | some u => insert u s
        | Option.none => s) ↔ _
      cases h : ToolType.ofString? n with
      | none =>
          rw [ih]
          simp only [List.mem_cons]
          constructor
          · rintro (hs | ⟨m, hm, he⟩)
            · exact Or.inl hs
            · exact Or.inr ⟨m, Or.inr hm, he⟩
          · rintro (hs | ⟨m, hm | hm, he⟩)
            · exact Or.inl hs
            · subst hm; rw [h] at he; cases he
            · exact Or.inr ⟨m, hm, he⟩
      | some u =>
          rw [ih]
          simp only [Finset.mem_insert, List.mem_cons]
          constructor
          · rintro ((rfl | hs) | ⟨m, hm, he⟩)
            · exact Or.inr ⟨n, Or.inl rfl, by rw [h]⟩
            · exact Or.inl hs
            · exact Or.inr ⟨m, Or.inr hm, he⟩
          · rintro (hs | ⟨m, hm | hm, he⟩)
            · exact Or.inl (Or.inr hs)
            · subst hm; rw [h] at he
              exact Or.inl (Or.inl (Option.some_injective _ he).symm)
            · exact Or.inr ⟨m, hm, he⟩

theorem mem_disable_tools :
    ∀ (names : List String) (s : Finset ToolType) (t : ToolType),
      t ∈ disable_tools names s ↔
        t ∈ s ∧ ∀ n ∈ names, ToolType.ofString? n ≠ some t := by
  intro names
  induction names with
  | nil => intro s t; simp [disable_tools]
  | cons n ns ih =>
      intro s t
      show t ∈ disable_tools ns (match ToolType.ofString? n with
        | some u => s.erase u
        | Option.none => s) ↔ _
      cases h : ToolType.ofString? n with
      | none =>
          rw [ih]
          simp only [List.mem_cons]
          constructor
          · rintro ⟨hs, hall⟩
            refine ⟨hs, ?_⟩
            rintro m (rfl | hm)
            · rw [h]; simp
            · exact hall m hm
          · rintro ⟨hs, hall⟩
            exact ⟨hs, fun m hm => hall m (Or.inr hm)⟩
      | some u =>
          rw [ih]
          simp only [Finset.mem_erase, List.mem_cons]
          constructor
          · rintro ⟨⟨hne, hs⟩, hall⟩
            refine ⟨hs, ?_⟩
            rintro m (rfl | hm)
            · rw [h]
              intro he
              exact hne ((Option.some_injective _ he).symm)
            · exact hall m hm
          · rintro ⟨hs, hall⟩
            refine ⟨⟨?_, hs⟩, fun m hm => hall m (Or.inr hm)⟩
            intro rfl_eq
            exact hall n (Or.inl rfl) (by rw [h, rfl_eq])

theorem appendToFirstSystem_spec :
    ∀ (ctx : String) (messages : List Message),
      messages.any (fun m => m.role == "system") = true →
      ∃ pre m post, messages = pre ++ m :: post ∧
        (∀ p ∈ pre, p.role ≠ "system") ∧ m.role = "system" ∧
        appendToFirstSystem ctx messages =
          pre ++ { m with content := some ((m.content.getD "") ++ ctx) } :: post := by
  intro ctx messages
  induction messages with
  | nil => intro h; simp at h
  | cons m ms ih =>
      intro h
      by_cases hm : m.role = "system"
      · refine ⟨[], m, ms, by simp, by simp, hm, ?_⟩
        simp [appendToFirstSystem, hm]
      · have hany : ms.any (fun x => x.role == "system") = true := by
          simp only [List.any_cons] at h
          rcases Bool.or_eq_true_iff.mp h with h1 | h2
          · exact absurd (by simpa using h1) hm
          · exact h2
        obtain ⟨pre, mid, post, heq, hpre, hmid, happ⟩ := ih hany
        refine ⟨m :: pre, mid, post, by simp [heq], ?_, hmid, ?_⟩
        · intro p hp
          rcases List.mem_cons.mp hp with rfl | hp'
          · exact hm
          · exact hpre p hp'
        · simp only [appendToFirstSystem, beq_iff_eq, hm, if_false, List.cons_append]
          rw [happ]

theorem extract_eq_ite (content : String) :
    extract_tool_calls_from_message content =
      if (extractList content).isEmpty then Option.none
      else some (extractList content) := rfl

/-- Claim C1, counterexample: on a request carrying only a non-empty
legacy `functions` list naming `read_file`, the claimed decision
algorithm (case 3: treat the legacy names like case 1) disagrees with the
pair the code computes — `should_enable_tools` is true but
`get_tool_config` returns the empty allow-list, not the mapped legacy
names. -/
theorem C1_counterexample :
    claimPolicyC1 reqFuncOnly ≠
      (should_enable_tools reqFuncOnly, (get_tool_config reqFuncOnly).1) := by
  decide

/-- Claim C1 (amended): the resolver evaluates the claimed precedence,
first match wins, as a pure function of the request — (1) a non-empty
tools array gives the mapped allow-list, (2) else a true `enable_tools`
flag gives allow-list none, (3) else a non-empty legacy functions list
leaves tools active but with the EMPTY allow-list (the legacy names are
not mapped: `get_tool_config` has no functions branch), (4) else tools
are inactive with empty allow-list. -/
theorem C1_policy_precedence :
    ∀ r : Request,
      (should_enable_tools r, (get_tool_config r).1) = amendedPolicyC1 r := by
  intro r
  unfold should_enable_tools get_tool_config amendedPolicyC1
  by_cases h1 : r.enable_tools <;> by_cases h2 : r.tools.isEmpty <;>
    by_cases h3 : r.functions.isEmpty <;> simp [h1, h2, h3]

/-- Claim C2, counterexample: `"read_file"` is the external name of the
catalogue read tool, yet enabling it adds nothing to the enabled set —
`ToolType("read_file")` raises ValueError and the name is skipped, so
enable does NOT accept external names. -/
theorem C2_counterexample :
    ToolType.read ∉ enable_tools ["read_file"] ∅ ∧
      identifier_of "read_file" = some ToolType.read := by
  exact ⟨by decide, by decide⟩

/-- Claim C2 (amended): enable adds to the enabled set exactly the tools
whose INTERNAL identifier string appears among the names; disable removes
under the same rule; names that are not internal identifiers — including
most external names such as `"read_file"` — are logged and skipped
without raising (the operations are total). -/
theorem C2_enable_disable :
    (∀ (names : List String) (s : Finset ToolType) (t : ToolType),
        t ∈ enable_tools names s ↔
          t ∈ s ∨ ∃ n ∈ names, ToolType.ofString? n = some t) ∧
    (∀ (names : List String) (s : Finset ToolType) (t : ToolType),
        t ∈ disable_tools names s ↔
          t ∈ s ∧ ∀ n ∈ names, ToolType.ofString? n ≠ some t) ∧
    ToolType.ofString? "read_file" = Option.none ∧
    ToolType.ofString? "read" = some ToolType.read :=
  ⟨mem_enable_tools, mem_disable_tools, rfl, rfl⟩

/-- Witness for C2: the characterizations applied at concrete inputs —
enabling by internal identifier `"read"` adds the read tool, disabling by
`"read"` removes it. -/
theorem C2_witness :
    ToolType.read ∈ enable_tools ["read"] ∅ ∧
      ToolType.read ∉ disable_tools ["read"] {ToolType.read} := by
  constructor
  · exact (C2_enable_disable.1 ["read"] ∅ ToolType.read).mpr
      (Or.inr ⟨"read", by decide, rfl⟩)
  · intro hmem
    have h := (C2_enable_disable.2.1 ["read"] {ToolType.read} ToolType.read).mp hmem
    exact h.2 "read" (by decide) rfl

/-- Claim C3, counterexample: on text with no fenced command block and no
file-read phrasing the extractor does not return the empty list — it
returns `None` (`return tool_calls if tool_calls else None`). -/
theorem C3_counterexample :
    extract_tool_calls_from_message "hello" = Option.none := by
  decide

/-- Claim C3 (amended): the extractor is a total function of the input
text (it never raises) and returns an Optional list: `None` exactly when
nothing matches, otherwise a non-empty candidate list; absence of matches
is not an error. -/
theorem C3_total_shape :
    ∀ content : String,
      (extract_tool_calls_from_message content = Option.none ↔
        extractList content = []) ∧
      ∀ l, extract_tool_calls_from_message content = some l →
        l = extractList content ∧ l ≠ [] := by
  intro content
  rw [extract_eq_ite]
  by_cases h : (extractList content).isEmpty
  · have hl : extractList content = [] := by simpa using h
    constructor
    · simp [h, hl]
    · intro l hsome
      rw [if_pos h] at hsome
      cases hsome
  · have hl : extractList content ≠ [] := by simpa using h
    constructor
    · simp [h, hl]
    · intro l hsome
      rw [if_neg h] at hsome
      have heq : extractList content = l := Option.some_injective _ hsome
      exact ⟨heq.symm, heq ▸ hl⟩

/-- Witness for C3: the shape theorem applied at the empty input text. -/
theorem C3_witness :
    extract_tool_calls_from_message "" = Option.none :=
  (C3_total_shape "").1.mpr (by decide)

theorem isOk_map (d : Except String String) (f : String → Message) :
    (d.map f).isOk = d.isOk := by
  cases d <;> rfl

theorem map_eq_ok {d : Except String String} {f : String → Message}
    {m : Message} (h : d.map f = .ok m) : ∃ c, d = .ok c ∧ m = f c := by
  cases d with
  | ok c =>
      refine ⟨c, rfl, ?_⟩
      have : Except.ok (f c) = Except.ok (ε := String) m := h
      cases this
      rfl
  | error e => cases h

theorem format_nonstr (id : String) (result : PyValue) (error : Option String)
    (h : strOptTruthy error = false) (hns : ∀ s, result ≠ .str s) :
    format_tool_response id result error =
      (pyJsonDumps result).map fun c =>
        { role := "tool", content := some c, tool_call_id := some id } := by
  unfold format_tool_response
  rw [if_neg (by simp [h])]
  cases result with
  | str s => exact absurd rfl (hns s)
  | int n => rfl
  | bool b => rfl
  | null => rfl
  | list xs => rfl
  | dict kvs => rfl
  | pyObject => rfl

/-- Claim C4, counterexample: a non-JSON-serializable result with no
error set makes `format_tool_response` raise — `json.dumps` has no
try/except around it, so the TypeError propagates instead of degrading to
a text fallback. -/
theorem C4_counterexample :
    format_tool_response "call_1" PyValue.pyObject Option.none =
      Except.error "Object is not JSON serializable" := rfl

/-- Claim C4 (amended): the formatter returns a tool-role message
carrying the given call id whenever the error branch is taken or the
result serializes — the content being the result verbatim for a string
result and exactly the `json.dumps` text for any other serializable
result; when the error is falsy, the call succeeds exactly when
`json.dumps` does and a serialization failure propagates verbatim to the
caller rather than degrading to a fallback. -/
theorem C4_formatter :
    ∀ (id : String) (result : PyValue) (error : Option String),
      (strOptTruthy error = true →
        format_tool_response id result error =
          .ok ⟨"tool", some ("Error executing tool: " ++ error.getD ""), some id⟩) ∧
      (strOptTruthy error = false → ∀ s, result = .str s →
        format_tool_response id result error = .ok ⟨"tool", some s, some id⟩) ∧
      (strOptTruthy error = false → ∀ c, (∀ s, result ≠ .str s) →
        pyJsonDumps result = .ok c →
        format_tool_response id result error = .ok ⟨"tool", some c, some id⟩) ∧
      (strOptTruthy error = false → ∀ e, pyJsonDumps result = .error e →
        format_tool_response id result error = .error e) ∧
      (strOptTruthy error = false →
        (format_tool_response id result error).isOk = (pyJsonDumps result).isOk) ∧
      (∀ m, format_tool_response id result error = .ok m →
        m.role = "tool" ∧ m.tool_call_id = some id) := by
  intro id result error
  refine ⟨?_, ?_, ?_, ?_, ?_, ?_⟩
  · intro h
    unfold format_tool_response
    rw [if_pos h]
  · intro h s hs
    subst hs
    unfold format_tool_response
    rw [if_neg (by simp [h])]
  · intro h c hns hd
    rw [format_nonstr id result error h hns, hd]
    rfl
  · intro h e hd
    cases result with
    | str s => exact absurd hd (by simp [pyJsonDumps])
    | int n =>
        rw [format_nonstr id _ error h (fun s hh => PyValue.noConfusion hh), hd]; rfl
    | bool b =>
        rw [format_nonstr id _ error h (fun s hh => PyValue.noConfusion hh), hd]; rfl
    | null =>
        rw [format_nonstr id _ error h (fun s hh => PyValue.noConfusion hh), hd]; rfl
    | list xs =>
        rw [format_nonstr id _ error h (fun s hh => PyValue.noConfusion hh), hd]; rfl
    | dict kvs =>
        rw [format_nonstr id _ error h (fun s hh => PyValue.noConfusion hh), hd]; rfl
    | pyObject =>
        rw [format_nonstr id _ error h (fun s hh => PyValue.noConfusion hh), hd]; rfl
  · intro h
    unfold format_tool_response
    rw [if_neg (by simp [h])]
    cases result <;> first | rfl | simp [isOk_map]
  · intro m hm
    unfold format_tool_response at hm
    by_cases h : strOptTruthy error = true
    · rw [if_pos h] at hm
      cases hm
      exact ⟨rfl, rfl⟩
    · rw [if_neg h] at hm
      cases result with
      | str s =>
          cases hm
          exact ⟨rfl, rfl⟩
      | int n =>
          obtain ⟨c, _, rfl⟩ := map_eq_ok hm
          exact ⟨rfl, rfl⟩
      | bool b =>
          obtain ⟨c, _, rfl⟩ := map_eq_ok hm
          exact ⟨rfl, rfl⟩
      | null =>
          obtain ⟨c, _, rfl⟩ := map_eq_ok hm
          exact ⟨rfl, rfl⟩
      | list xs =>
          obtain ⟨c, _, rfl⟩ := map_eq_ok hm
          exact ⟨rfl, rfl⟩
      | dict kvs =>
          obtain ⟨c, _, rfl⟩ := map_eq_ok hm
          exact ⟨rfl, rfl⟩
      | pyObject =>
          obtain ⟨c, _, rfl⟩ := map_eq_ok hm
          exact ⟨rfl, rfl⟩

/-- Witness for C4: the formatter theorem applied at the dict result
`{"files": ["a", "b"]}` with no error — the returned tool message's
content is exactly the `json.dumps` text of the result. -/
theorem C4_witness :
    strOptTruthy Option.none = false ∧
      pyJsonDumps (PyValue.dict [("files", PyValue.list [.str "a", .str "b"])]) =
        .ok "\x7b\"files\": [\"a\", \"b\"]\x7d" ∧
      format_tool_response "c1"
          (PyValue.dict [("files", PyValue.list [.str "a", .str "b"])])
          Option.none =
        .ok ⟨"tool", some "\x7b\"files\": [\"a\", \"b\"]\x7d", some "c1"⟩ :=
  ⟨rfl, rfl,
   (C4_formatter "c1" (PyValue.dict [("files", PyValue.list [.str "a", .str "b"])])
       Option.none).2.2.1 rfl "\x7b\"files\": [\"a\", \"b\"]\x7d"
     (fun _ h => PyValue.noConfusion h) rfl⟩

/-- Claim C10: the formatter decides the error branch by string
truthiness, not presence — an empty-string error behaves exactly like no
error at all (the success path), and the fixed error content is produced
precisely for non-empty error strings. -/
theorem C10_error_truthiness :
    ∀ (id : String) (result : PyValue),
      format_tool_response id result (some "") =
        format_tool_response id result Option.none ∧
      ∀ e, e ≠ "" →
        format_tool_response id result (some e) =
          .ok ⟨"tool", some ("Error executing tool: " ++ e), some id⟩ := by
  intro id result
  constructor
  · rfl
  · intro e he
    have ht : strOptTruthy (some e) = true := by
      simp [strOptTruthy, he]
    unfold format_tool_response
    rw [if_pos ht]
    rfl

/-- Witness for C10: the truthiness theorem applied at a concrete result,
with the empty-string error and with the error "boom". -/
theorem C10_witness :
    format_tool_response "c1" (PyValue.bool true) (some "") =
      format_tool_response "c1" (PyValue.bool true) Option.none ∧
    format_tool_response "c1" (PyValue.bool true) (some "boom") =
      .ok ⟨"tool", some "Error executing tool: boom", some "c1"⟩ :=
  ⟨(C10_error_truthiness "c1" (PyValue.bool true)).1,
   (C10_error_truthiness "c1" (PyValue.bool true)).2 "boom" (by decide)⟩

/-- Claim C5: for a request whose non-empty tools array lists only
function-typed definitions, the allow-list is exactly the names obtained
by pushing each listed function name through the name mapper, names
without a mapping dropped silently; concretely, a tools array containing
only `read_file` yields the allow-list `["Read"]`. -/
theorem C5_tools_allowlist :
    (∀ r : Request, r.tools ≠ [] →
      (∀ t ∈ r.tools, t.type = some "function") →
      (get_tool_config r).1 =
        some (r.tools.filterMap fun t =>
          (t.function.getD ⟨Option.none, Option.none⟩).name.bind
            map_function_to_tool)) ∧
    get_tool_config reqReadFile = (some ["Read"], Option.none) := by
  constructor
  · intro r hne hall
    unfold get_tool_config
    rw [if_pos (by simpa using hne)]
    refine congrArg (fun l => some l) (List.filterMap_congr ?_)
    intro t ht
    unfold toolSpecClaudeName
    rw [if_pos (hall t ht)]
    cases (t.function.getD ⟨Option.none, Option.none⟩).name <;> rfl
  · decide

/-- Witness for C5: the allow-list theorem applied at the concrete
request whose tools array contains exactly the `read_file` definition. -/
theorem C5_witness :
    reqReadFile.tools ≠ [] ∧
      (get_tool_config reqReadFile).1 =
        some (reqReadFile.tools.filterMap fun t =>
          (t.function.getD ⟨Option.none, Option.none⟩).name.bind
            map_function_to_tool) :=
  ⟨by decide, C5_tools_allowlist.1 reqReadFile (by decide) (by decide)⟩

/-- Claim C6: for every catalogue entry, looking up the identifier of its
external name returns that entry's identifier (the round trip
`identifierOf(externalNameOf(id)) == id`), and the external names of the
catalogue are pairwise distinct — the mapping is a bijection over the
defined set. -/
theorem C6_roundtrip :
    (∀ p ∈ CLAUDE_TOOLS, identifier_of p.2.function.name = some p.1) ∧
      (CLAUDE_TOOLS.map fun p => p.2.function.name).Nodup := by
  exact ⟨by decide, by decide⟩

/-- Witness for C6: the round trip applied at the catalogue's read
entry. -/
theorem C6_witness :
    (ToolType.read, readTool) ∈ CLAUDE_TOOLS ∧
      identifier_of readTool.function.name = some ToolType.read :=
  ⟨by unfold CLAUDE_TOOLS; exact List.mem_cons_self _ _,
   C6_roundtrip.1 (ToolType.read, readTool)
     (by unfold CLAUDE_TOOLS; exact List.mem_cons_self _ _)⟩

/-- Claim C7: resetting the allow-list to the wildcard (None) makes the
enabled tools exactly the full catalogue in catalogue order; resetting it
to the empty list makes the enabled tools empty (deny by omission) —
regardless of the previous enabled set. -/
theorem C7_allowlist_reset :
    ∀ s : Finset ToolType,
      get_enabled_tools (set_allowed_tools Option.none s) =
        CLAUDE_TOOLS.map (·.2) ∧
      get_enabled_tools (set_allowed_tools (some []) s) = [] := by
  intro s
  constructor
  · show get_enabled_tools Finset.univ = _
    unfold get_enabled_tools
    rw [List.filter_eq_self.mpr (by intro a _; simp)]
  · show get_enabled_tools ∅ = _
    unfold get_enabled_tools
    rw [List.filter_eq_nil_iff.mpr (by intro a _; simp)]
    rfl

/-- Claim C8, counterexample: a non-empty tool list none of whose entries
is function-typed produces no description line — the messages come back
unchanged and no system message is appended or prepended, though the
claim's "otherwise" branch promises one line per tool and an injection. -/
theorem C8_counterexample :
    ([⟨some "custom", Option.none⟩] : List ToolSpec) ≠ [] ∧
      inject_tool_context [⟨"user", some "hi", Option.none⟩]
          [⟨some "custom", Option.none⟩] =
        [⟨"user", some "hi", Option.none⟩] ∧
      ∀ m ∈ inject_tool_context [⟨"user", some "hi", Option.none⟩]
          [⟨some "custom", Option.none⟩], m.role ≠ "system" := by
  refine ⟨by decide, by decide, by decide⟩

/-- Claim C8 (amended): the injector returns the messages unchanged when
the tool list is empty OR contains no function-typed entry; otherwise it
renders one "- name: description" line per function-typed tool and either
appends the rendered block to the content of the first system-role
message (when one exists, every message before it being non-system) or
prepends one new system-role message with the fixed preamble plus the
block; it never reorders or removes an existing message. -/
theorem C8_injection :
    ∀ (messages : List Message) (tools : List ToolSpec),
      (tools = [] → inject_tool_context messages tools = messages) ∧
      (injectDescLines tools = [] →
        inject_tool_context messages tools = messages) ∧
      (injectDescLines tools ≠ [] →
        messages.any (fun m => m.role == "system") = false →
        inject_tool_context messages tools =
          injectSystemMessage tools :: messages) ∧
      (injectDescLines tools ≠ [] →
        messages.any (fun m => m.role == "system") = true →
        ∃ pre m post, messages = pre ++ m :: post ∧
          (∀ p ∈ pre, p.role ≠ "system") ∧ m.role = "system" ∧
          inject_tool_context messages tools =
            pre ++ { m with content := some ((m.content.getD "") ++ injectContext tools) } :: post) := by
  intro messages tools
  refine ⟨?_, ?_, ?_, ?_⟩
  · intro h
    subst h
    rfl
  · intro h
    unfold inject_tool_context
    by_cases ht : tools.isEmpty
    · rw [if_pos ht]
    · rw [if_neg ht, if_pos (by simp [h])]
  · intro hd hany
    have ht : tools.isEmpty = false := by
      cases tools with
      | nil => exact absurd rfl hd
      | cons a l => rfl
    unfold inject_tool_context
    rw [if_neg (by simp [ht]), if_neg (by simp [hd]),
      if_neg (by simp [hany])]
  · intro hd hany
    have ht : tools.isEmpty = false := by
      cases tools with
      | nil => exact absurd rfl hd
      | cons a l => rfl
    obtain ⟨pre, m, post, heq, hpre, hm, happ⟩ :=
      appendToFirstSystem_spec (injectContext tools) messages hany
    refine ⟨pre, m, post, heq, hpre, hm, ?_⟩
    unfold inject_tool_context
    rw [if_neg (by simp [ht]), if_neg (by simp [hd]), if_pos hany]
    exact happ

/-- Witness for C8: the injection theorem applied at one user message and
the `list_directory` tool — a fresh system message is prepended and the
user message stays last. -/
theorem C8_witness :
    inject_tool_context [⟨"user", some "hi", Option.none⟩]
        [⟨some "function",
          some ⟨some "list_directory", some "List contents of a directory"⟩⟩] =
      injectSystemMessage
          [⟨some "function",
            some ⟨some "list_directory", some "List contents of a directory"⟩⟩]
        :: [⟨"user", some "hi", Option.none⟩] :=
  (C8_injection [⟨"user", some "hi", Option.none⟩]
      [⟨some "function",
        some ⟨some "list_directory", some "List contents of a directory"⟩⟩]).2.2.1
    (by decide) (by decide)

theorem extractList_eq (content : String) :
    extractList content =
      mkCalls "run_command" "command" 0 (bash_commands content) ++
        mkCalls "read_file" "path"
          (mkCalls "run_command" "command" 0 (bash_commands content)).length
          (read_paths content) := rfl

/-- Claim C9: each fenced shell block becomes one `run_command` candidate
with the trimmed block text as command, each file-read phrase becomes one
`read_file` candidate with the matched token as path, identifiers are
assigned sequentially across the command pass then the file-read pass
(prefix `call_` plus running index) and are unique within one extraction;
the two worked examples of the spec hold exactly. -/
theorem C9_extraction :
    extract_tool_calls_from_message "```bash\nls -la\n```" =
      some [⟨"call_0", "function",
        ⟨"run_command", "\x7b\"command\": \"ls -la\"\x7d"⟩⟩] ∧
    extract_tool_calls_from_message "Let me read the file /etc/hosts" =
      some [⟨"call_0", "function",
        ⟨"read_file", "\x7b\"path\": \"/etc/hosts\"\x7d"⟩⟩] ∧
    (∀ content : String, (extractList content).map (·.id) =
      (List.range ((bash_commands content).length +
        (read_paths content).length)).map callId) ∧
    (∀ content : String, ((extractList content).map (·.id)).Nodup) ∧
    (∀ (content : String) (j : Nat) (cmd : String),
      (bash_commands content)[j]? = some cmd →
      (extractList content)[j]? = some ⟨callId j, "function",
        ⟨"run_command", dumpsStrField "command" cmd⟩⟩) ∧
    (∀ (content : String) (j : Nat) (p : String),
      (read_paths content)[j]? = some p →
      (extractList content)[(bash_commands content).length + j]? =
        some ⟨callId ((bash_commands content).length + j), "function",
          ⟨"read_file", dumpsStrField "path" p⟩⟩) := by
  have hids : ∀ content, (extractList content).map (·.id) =
      (List.range ((bash_commands content).length +
        (read_paths content).length)).map callId := by
    intro content
    rw [extractList_eq, List.map_append, mkCalls_map_id, mkCalls_map_id,
      mkCalls_length, ← List.map_append, List.range_eq_range']
    rw [show List.range' 0 (bash_commands content).length ++
        List.range' (bash_commands content).length (read_paths content).length
        = List.range' 0 ((read_paths content).length +
            (bash_commands content).length) from by
      simpa using List.range'_append_1 0 (bash_commands content).length
        (read_paths content).length]
    rw [Nat.add_comm]
  refine ⟨by decide, by decide, hids, ?_, ?_, ?_⟩
  · intro content
    rw [hids content]
    exact (List.nodup_range _).map callId_injective
  · intro content j cmd hj
    have hjlt : j < (bash_commands content).length := by
      by_contra hge
      rw [List.getElem?_eq_none (by omega)] at hj
      cases hj
    rw [extractList_eq,
      List.getElem?_append_left (by rw [mkCalls_length]; exact hjlt),
      mkCalls_getElem?, hj]
    simp
  · intro content j p hp
    rw [extractList_eq,
      List.getElem?_append_right (by rw [mkCalls_length]; omega),
      mkCalls_length]
    have hsub : (bash_commands content).length + j -
        (bash_commands content).length = j := by omega
    rw [hsub, mkCalls_getElem?, hp]
    rfl

/-- Witness for C9: the per-index characterization applied at the fenced
bash block example. -/
theorem C9_witness :
    (bash_commands "```bash\nls -la\n```")[0]? = some "ls -la" ∧
      (extractList "```bash\nls -la\n```")[0]? =
        some ⟨callId 0, "function",
          ⟨"run_command", dumpsStrField "command" "ls -la"⟩⟩ :=
  ⟨by decide, C9_extraction.2.2.2.2.1 "```bash\nls -la\n```" 0 "ls -la"
    (by decide)⟩

/-- Witness for C1: the precedence theorem applied at the concrete
request whose tools array contains the `read_file` definition. -/
theorem C1_witness :
    (should_enable_tools reqReadFile, (get_tool_config reqReadFile).1) =
      amendedPolicyC1 reqReadFile :=
  C1_policy_precedence reqReadFile

/-- Witness for C7: the reset theorem applied at the empty enabled set. -/
theorem C7_witness :
    get_enabled_tools (set_allowed_tools Option.none ∅) =
        CLAUDE_TOOLS.map (·.2) ∧
      get_enabled_tools (set_allowed_tools (some []) ∅) = [] :=
  C7_allowlist_reset ∅
